import Mathlib

/-!
Shallow embedding of `src/reactive/flannel.py` from the charm-flannel
repository: a reactive Juju charm that installs and supervises the Flannel
overlay-network daemon.  Each reactive handler is modelled as a pure
function from an external `World` (the results returned by the host system:
fetched resources, subprocess outputs and exit statuses, charm config) and
the current completion `Flags` to a `HResult` holding the updated flags,
the ordered trace of external effects the handler performed, and the
exception it propagated, if any.  Flag-gated dispatch is modelled
separately as a step machine over `StepId`.
-/

namespace Flannel

/-- Python `str.split(sep)` for a single-character separator, on lists of
characters: splitting the empty string gives `[[]]`, consecutive separators
give empty fields, and the number of fields is one more than the number of
separator occurrences. -/
def pySplitChar (sep : Char) : List Char → List (List Char)
  | [] => [[]]
  | c :: cs =>
    let r := pySplitChar sep cs
    if c = sep then [] :: r
    else
      match r with
      | h :: t => (c :: h) :: t
      | [] => [[c]]

/-- Python `str.split(sep)` on strings, single-character separator. -/
def pySplit (sep : Char) (s : String) : List String :=
  (pySplitChar sep s.toList).map String.mk

/-- Whether `needle` starts `hay` (character-list version). -/
def leadsWith : List Char → List Char → Bool
  | [], _ => true
  | _ :: _, [] => false
  | a :: as, b :: bs => a = b && leadsWith as bs

/-- Python `needle in hay` substring containment on character lists. -/
def containsSub (needle : List Char) : List Char → Bool
  | [] => leadsWith needle []
  | h :: t => leadsWith needle (h :: t) || containsSub needle t

/-- Python `needle in hay` substring containment on strings. -/
def pyContainsStr (needle hay : String) : Bool :=
  containsSub needle.toList hay.toList

/-- Python `str.strip()`: drop whitespace from both ends. -/
def pyStrip (s : List Char) : List Char :=
  ((s.dropWhile Char.isWhitespace).reverse.dropWhile Char.isWhitespace).reverse

/-- Python truthiness of an optional string config value: `None` and the
empty string are falsy. -/
def truthy : Option String → Bool
  | none => false
  | some s => s ≠ ""

/-- Python `a or b` on optional string values. -/
def pyOr (a b : Option String) : Option String :=
  if truthy a then a else b

/-- Python `line.split(' ')[-1]`: the last single-space-separated field of a
line (`pySplitChar` never returns an empty list, so the default is inert). -/
def pyLastField (l : String) : String :=
  (pySplit ' ' l).getLastD ""

/-- Lower-case hex digit for a nibble, as produced by Python `json.dumps`
escapes. -/
def hexDigit (n : Nat) : Char :=
  if n < 10 then Char.ofNat (48 + n) else Char.ofNat (97 + (n - 10))

/-- A `\uXXXX` escape with four lower-case hex digits. -/
def uEscape (n : Nat) : List Char :=
  ['\\', 'u', hexDigit (n / 4096 % 16), hexDigit (n / 256 % 16),
   hexDigit (n / 16 % 16), hexDigit (n % 16)]

/-- Per-character escaping of Python `json.dumps` with its default
`ensure_ascii=True`: short escapes for quote, backslash and common control
characters, `\uXXXX` for the remaining control and non-ASCII characters,
surrogate pairs beyond the BMP. -/
def jsonEscapeChar (c : Char) : List Char :=
  if c = '"' then ['\\', '"']
  else if c = '\\' then ['\\', '\\']
  else if c = '\n' then ['\\', 'n']
  else if c = '\t' then ['\\', 't']
  else if c = '\r' then ['\\', 'r']
  else if c.toNat = 8 then ['\\', 'b']
  else if c.toNat = 12 then ['\\', 'f']
  else if c.toNat < 32 then uEscape c.toNat
  else if c.toNat < 127 then [c]
  else if c.toNat < 65536 then uEscape c.toNat
  else uEscape (55296 + (c.toNat - 65536) / 1024) ++
       uEscape (56320 + (c.toNat - 65536) % 1024)

/-- Python `json.dumps` of a string value. -/
def jsonStr (s : String) : String :=
  "\"" ++ String.mk (s.toList.flatMap jsonEscapeChar) ++ "\""

/-- `json.dumps({'Network': cidr, 'Backend': {'Type': 'vxlan'}})` with
Python's default separators and insertion-ordered keys. -/
def networkConfigJson (cidr : String) : String :=
  "\x7b\"Network\": " ++ jsonStr cidr ++
  ", \"Backend\": \x7b\"Type\": \"vxlan\"\x7d\x7d"

/-- `ETCD_PATH` from the module header. -/
def ETCD_PATH : String := "/etc/ssl/flannel"

/-- `ETCD_KEY_PATH` from the module header. -/
def ETCD_KEY_PATH : String := ETCD_PATH ++ "/client-key.pem"

/-- `ETCD_CERT_PATH` from the module header. -/
def ETCD_CERT_PATH : String := ETCD_PATH ++ "/client-cert.pem"

/-- `ETCD_CA_PATH` from the module header. -/
def ETCD_CA_PATH : String := ETCD_PATH ++ "/client-ca.pem"

/-- The reactive completion flags this charm sets and clears. -/
structure Flags where
  binariesInstalled : Bool
  cniConfigured : Bool
  etcdCredentialsInstalled : Bool
  serviceInstalled : Bool
  networkConfigured : Bool
  serviceStarted : Bool
  cniAvailable : Bool
  versionSet : Bool
deriving Repr, DecidableEq

/-- All completion flags cleared: the state of a fresh deployment. -/
def initFlags : Flags :=
  { binariesInstalled := false, cniConfigured := false,
    etcdCredentialsInstalled := false, serviceInstalled := false,
    networkConfigured := false, serviceStarted := false,
    cniAvailable := false, versionSet := false }

/-- Template context rendered into `flannel.service`. -/
structure ServiceContext where
  iface : Option String
  connection_string : String
  cert_path : String
deriving Repr, DecidableEq

/-- Context argument of a `render` call: the CNI config is rendered with an
empty context, the service unit with a `ServiceContext`. -/
inductive RenderCtx where
  | empty : RenderCtx
  | service (ctx : ServiceContext) : RenderCtx
deriving Repr, DecidableEq

/-- One observable external effect of a handler, in execution order. -/
inductive Action where
  | logMsg (msg : String) : Action
  | logCmd (cmd : List String) : Action
  | status (level msg : String) : Action
  | makeDirs (path : String) : Action
  | checkCallArgs (cmd : List String) : Action
  | checkCallShell (cmd : String) : Action
  | checkOutputCmd (cmd : List String) : Action
  | renderFile (template target : String) (ctx : RenderCtx) : Action
  | svcStart (name : String) : Action
  | svcStop (name : String) : Action
  | saveCreds (key cert ca : String) : Action
  | appVersionSet (v : String) : Action
  | removeFile (path : String) : Action
  | cniAvailableSignal : Action
deriving Repr, DecidableEq

/-- Result of running one handler body: updated flags, effect trace, and
the exception it propagated (`some "CalledProcessError"`), if any. -/
structure HResult where
  flags : Flags
  trace : List Action
  exc : Option String
deriving Repr, DecidableEq

/-- Everything the host system hands to the handlers: the fetched resource
(`.error` for a raised exception, `.ok none` for a missing resource), its
size, the charm directory, subprocess outputs, charm config values, the
etcd connection string, subprocess exit statuses, and which files exist at
teardown. -/
structure World where
  resourceGet : Except Unit (Option String)
  archiveSize : Nat
  charmDir : String
  routeOutput : String
  configIface : Option String
  configCidr : String
  connectionString : String
  versionOutput : String
  tarOk : Bool
  installOk : Bool
  etcdctlOk : Bool
  ipLinkDownOk : Bool
  ipLinkDeleteOk : Bool
  existingFiles : List String
deriving Repr

/-- Helper for the three early-return failure paths of
`install_flannel_binaries`: log the message, set the status to blocked and
return with the flags untouched. -/
def blockedResult (f : Flags) (message : String) : HResult :=
  { flags := f, trace := [.logMsg message, .status "blocked" message],
    exc := none }

/-- The `apps` list of `install_flannel_binaries`: each binary name with
its destination directory. -/
def flannelApps : List (String × String) :=
  [("flanneld", "/usr/local/bin"), ("etcdctl", "/usr/local/bin"),
   ("flannel", "/opt/cni/bin"), ("bridge", "/opt/cni/bin"),
   ("host-local", "/opt/cni/bin")]

/-- The `install -v -D` command issued for one app. -/
def installCmdFor (unpackPath : String) (app : String × String) : List String :=
  ["install", "-v", "-D", unpackPath ++ "/" ++ app.1, app.2 ++ "/" ++ app.1]

/-- Handler `install_flannel_binaries` (gated by
`@when_not('flannel.binaries.installed')`): fetch the `flannel` resource,
reject fetch errors, a missing resource, or an archive below 1000000 bytes
with a blocked status; otherwise unpack with `tar` into
`$CHARM_DIR/files/flannel`, install the five binaries, and set the flag.
An uncaught `CalledProcessError` from `tar` or `install` propagates. -/
def install_flannel_binaries (w : World) (f : Flags) : HResult :=
  match w.resourceGet with
  | .error _ => blockedResult f "Error fetching the flannel resource."
  | .ok none => blockedResult f "Missing flannel resource."
  | .ok (some archive) =>
    if w.archiveSize < 1000000 then
      blockedResult f "Incomplete flannel resource"
    else
      let unpackPath := w.charmDir ++ "/files/flannel"
      let tarCmd := ["tar", "xfz", archive, "-C", unpackPath]
      let pre : List Action :=
        [.status "maintenance" "Unpacking flannel resource.",
         .makeDirs unpackPath, .logCmd tarCmd, .checkCallArgs tarCmd]
      if !w.tarOk then
        { flags := f, trace := pre, exc := some "CalledProcessError" }
      else if !w.installOk then
        { flags := f,
          trace := pre ++
            [.checkCallArgs (installCmdFor unpackPath ("flanneld", "/usr/local/bin"))],
          exc := some "CalledProcessError" }
      else
        { flags := { f with binariesInstalled := true },
          trace := pre ++
            flannelApps.map (fun app => .checkCallArgs (installCmdFor unpackPath app)),
          exc := none }

/-- Handler `configure_cni` (gated by `@when('cni.is-worker')`,
`@when_not('flannel.cni.configured')`): render the CNI config file and set
the flag. -/
def configure_cni (f : Flags) : HResult :=
  { flags := { f with cniConfigured := true },
    trace := [.renderFile "10-flannel.conf" "/etc/cni/net.d/10-flannel.conf" .empty],
    exc := none }

/-- Handler `install_etcd_credentials` (gated by
`@when('etcd.tls.available')`,
`@when_not('flannel.etcd.credentials.installed')`): save the etcd client
credential files and set the flag. -/
def install_etcd_credentials (f : Flags) : HResult :=
  { flags := { f with etcdCredentialsInstalled := true },
    trace := [.saveCreds ETCD_KEY_PATH ETCD_CERT_PATH ETCD_CA_PATH],
    exc := none }

/-- The default-interface scan of `install_flannel_service` over the lines
of `route` output: starting from `default_interface = None`, take the first
line containing the substring `default` and return its last
space-separated field, breaking out of the loop. -/
def findIfaceLines : List String → Option String
  | [] => none
  | l :: rest =>
    if pyContainsStr "default" l then some (pyLastField l)
    else findIfaceLines rest

/-- `default_interface` as computed by `install_flannel_service` from the
decoded `route` output. -/
def find_default_interface (output : String) : Option String :=
  findIfaceLines (pySplit '\n' output)

/-- The template context `install_flannel_service` renders into
`flannel.service`. -/
def serviceContextOf (w : World) : ServiceContext :=
  { iface := pyOr w.configIface (find_default_interface w.routeOutput),
    connection_string := w.connectionString,
    cert_path := ETCD_PATH }

/-- Handler `install_flannel_service` (gated by the binaries and
credentials flags plus `etcd.available`,
`@when_not('flannel.service.installed')`): run `route`, build the context
with `config('iface') or default_interface`, render the unit file and set
the flag. -/
def install_flannel_service (w : World) (f : Flags) : HResult :=
  { flags := { f with serviceInstalled := true },
    trace := [.status "maintenance" "Installing flannel service.",
              .checkOutputCmd ["route"],
              .renderFile "flannel.service" "/lib/systemd/system/flannel.service"
                (.service (serviceContextOf w))],
    exc := none }

/-- The shell command string `configure_network` builds by successive
string formatting before handing it to `shlex.split` and `check_call`. -/
def etcdctlCommand (conn cidr : String) : String :=
  "etcdctl " ++
  ("--endpoint \x27" ++ conn ++ "\x27 ") ++
  ("--cert-file " ++ ETCD_CERT_PATH ++ " ") ++
  ("--key-file " ++ ETCD_KEY_PATH ++ " ") ++
  ("--ca-file " ++ ETCD_CA_PATH ++ " ") ++
  ("set /coreos.com/network/config \x27" ++ networkConfigJson cidr ++ "\x27")

/-- Handler `configure_network` (gated by the binaries and credentials
flags plus `etcd.available`, `@when_not('flannel.network.configured')`):
issue one `etcdctl set` call and set the flag; an uncaught
`CalledProcessError` propagates. -/
def configure_network (w : World) (f : Flags) : HResult :=
  let cmd := etcdctlCommand w.connectionString w.configCidr
  if w.etcdctlOk then
    { flags := { f with networkConfigured := true },
      trace := [.checkCallShell cmd], exc := none }
  else
    { flags := f, trace := [.checkCallShell cmd],
      exc := some "CalledProcessError" }

/-- Handler `start_flannel_service` (gated by the binaries, service and
network flags, `@when_not('flannel.service.started')`). -/
def start_flannel_service (f : Flags) : HResult :=
  { flags := { f with serviceStarted := true },
    trace := [.status "maintenance" "Starting flannel service.",
              .svcStart "flannel"],
    exc := none }

/-- Handler `set_available` (gated by `flannel.service.started` and
`cni.is-worker`, `@when_not('flannel.cni.available')`). -/
def set_available (f : Flags) : HResult :=
  { flags := { f with cniAvailable := true },
    trace := [.cniAvailableSignal], exc := none }

/-- The version string `set_flannel_version` reports:
`version.split('v')[-1].strip()`. -/
def pyReportedVersion (s : String) : String :=
  String.mk (pyStrip ((pySplitChar 'v' s.toList).getLastD []))

/-- Handler `set_flannel_version` (gated by `flannel.binaries.installed`,
`@when_not('flannel.version.set')`): run `flanneld -version`; when the
output is non-empty, report the parsed version and set the flag, otherwise
do neither. -/
def set_flannel_version (w : World) (f : Flags) : HResult :=
  let pre : List Action :=
    [.status "maintenance" "Setting flannel version.",
     .checkOutputCmd ["flanneld", "-version"]]
  if w.versionOutput = "" then
    { flags := f, trace := pre, exc := none }
  else
    { flags := { f with versionSet := true },
      trace := pre ++ [.appVersionSet (pyReportedVersion w.versionOutput)],
      exc := none }

/-- Handler `ready` (gated by `flannel.service.started` and any of
`cni.is-master` / `flannel.cni.available`). -/
def ready (f : Flags) : HResult :=
  { flags := f, trace := [.status "active" "Flannel is active."], exc := none }

/-- Handler `halt_execution` (gated by `@when_not('etcd.connected')`). -/
def halt_execution (f : Flags) : HResult :=
  { flags := f, trace := [.status "waiting" "Waiting for etcd relation."],
    exc := none }

/-- Hook handler `reset_states_and_redeploy` for `upgrade-charm`: its whole
body is one `remove_state('flannel.binaries.installed')` call, so the
effect trace is empty and only that flag changes. -/
def reset_states_and_redeploy (f : Flags) : HResult :=
  { flags := { f with binariesInstalled := false }, trace := [], exc := none }

/-- The file list `cleanup_deployment` walks at teardown. -/
def cleanupFiles : List String :=
  ["/usr/local/bin/flanneld", "/lib/systemd/system/flannel",
   "/lib/systemd/system/flannel.service", ETCD_KEY_PATH, ETCD_CERT_PATH,
   ETCD_CA_PATH, "/var/run/flannel/subnet.env"]

/-- Hook handler `cleanup_deployment` for `stop`: stop the service; try
`ip link set flannel.1 down` then `ip link delete flannel.1`, catching a
`CalledProcessError` from either (a failing `down` skips the `delete`) and
logging; then remove each file of `cleanupFiles` that exists, logging each
removal.  Flags are untouched and no exception escapes. -/
def cleanup_deployment (w : World) : List Action :=
  let down : List String := ["ip", "link", "set", "flannel.1", "down"]
  let delete : List String := ["ip", "link", "delete", "flannel.1"]
  let failLogs : List Action :=
    [.logMsg "Unable to remove iface flannel.1",
     .logMsg "Potential indication that cleanup is not possible"]
  [.svcStop "flannel"] ++
  (if w.ipLinkDownOk then
    if w.ipLinkDeleteOk then [.checkCallArgs down, .checkCallArgs delete]
    else [.checkCallArgs down, .checkCallArgs delete] ++ failLogs
   else [.checkCallArgs down] ++ failLogs) ++
  (cleanupFiles.filter (fun p => w.existingFiles.contains p)).flatMap
    (fun p => [.logMsg ("Removing " ++ p), .removeFile p])

/-! ### The flag-gated step machine

The reactive framework dispatches a handler whenever its `@when` /
`@when_not` guard holds.  `StepId` names the eight flag-setting handlers,
`stepGuard` transcribes their decorators, and `setStepFlag` is the
success-path flag update. -/

/-- The flag-setting handlers, one per completion flag. -/
inductive StepId where
  | binaries : StepId
  | cniConf : StepId
  | credentials : StepId
  | service : StepId
  | network : StepId
  | start : StepId
  | available : StepId
  | version : StepId
deriving Repr, DecidableEq

/-- The externally-owned relation states the decorators consult. -/
structure Rel where
  etcdTlsAvailable : Bool
  etcdAvailable : Bool
  etcdConnected : Bool
  cniIsWorker : Bool
  cniIsMaster : Bool
deriving Repr, DecidableEq

/-- All relation states on: etcd related and available, worker node. -/
def allRel : Rel :=
  { etcdTlsAvailable := true, etcdAvailable := true, etcdConnected := true,
    cniIsWorker := true, cniIsMaster := false }

/-- The completion flag owned by each step. -/
def stepFlagOf : StepId → Flags → Bool
  | .binaries, f => f.binariesInstalled
  | .cniConf, f => f.cniConfigured
  | .credentials, f => f.etcdCredentialsInstalled
  | .service, f => f.serviceInstalled
  | .network, f => f.networkConfigured
  | .start, f => f.serviceStarted
  | .available, f => f.cniAvailable
  | .version, f => f.versionSet

/-- The `@when` / `@when_not` decorator stack of each handler, as a guard
over the flags and relation states. -/
def stepGuard : StepId → Flags → Rel → Bool
  | .binaries, f, _ => !f.binariesInstalled
  | .cniConf, f, r => r.cniIsWorker && !f.cniConfigured
  | .credentials, f, r => r.etcdTlsAvailable && !f.etcdCredentialsInstalled
  | .service, f, r =>
      f.binariesInstalled && f.etcdCredentialsInstalled && r.etcdAvailable &&
      !f.serviceInstalled
  | .network, f, r =>
      f.binariesInstalled && f.etcdCredentialsInstalled && r.etcdAvailable &&
      !f.networkConfigured
  | .start, f, _ =>
      f.binariesInstalled && f.serviceInstalled && f.networkConfigured &&
      !f.serviceStarted
  | .available, f, r => f.serviceStarted && r.cniIsWorker && !f.cniAvailable
  | .version, f, _ => f.binariesInstalled && !f.versionSet

/-- The flag update a step performs when its body completes. -/
def setStepFlag : StepId → Flags → Flags
  | .binaries, f => { f with binariesInstalled := true }
  | .cniConf, f => { f with cniConfigured := true }
  | .credentials, f => { f with etcdCredentialsInstalled := true }
  | .service, f => { f with serviceInstalled := true }
  | .network, f => { f with networkConfigured := true }
  | .start, f => { f with serviceStarted := true }
  | .available, f => { f with cniAvailable := true }
  | .version, f => { f with versionSet := true }

/-- Dispatching one step: the body runs (and sets the flag) only when the
guard holds, otherwise the state is unchanged. -/
def dispatchStep (s : StepId) (f : Flags) (r : Rel) : Flags :=
  if stepGuard s f r then setStepFlag s f else f

/-- A run of the machine is valid when each step fires from the state left
by its predecessors with its guard true. -/
def validRun (f : Flags) (r : Rel) : List StepId → Bool
  | [] => true
  | s :: rest => stepGuard s f r && validRun (setStepFlag s f) r rest

/-- Position of each step in the linear sequence the spec describes
(install binaries → install credentials → render service file → seed etcd
config → start service → signal readiness → report version); `configure_cni`
is outside that sequence. -/
def linOrder : StepId → Option Nat
  | .binaries => some 0
  | .credentials => some 1
  | .service => some 2
  | .network => some 3
  | .start => some 4
  | .available => some 5
  | .version => some 6
  | .cniConf => none

/-- The eight steps, for finite quantification. -/
def allSteps : List StepId :=
  [.binaries, .cniConf, .credentials, .service, .network, .start,
   .available, .version]

/-- The linear-sequencing property the spec claims of a run: whenever a
step of the sequence runs, every step lying earlier in the sequence has
already completed. -/
def claimLinear (run : List StepId) : Bool :=
  (List.range run.length).all fun p =>
    allSteps.all fun q =>
      match linOrder q, linOrder (run.getD p .binaries) with
      | some oq, some op => decide (oq < op) → (run.take p).contains q
      | _, _ => true

/-- The completion-order prerequisites that the decorators actually
enforce: a step fires only after all steps in its `requires` list have
completed. -/
def requires : StepId → List StepId
  | .binaries => []
  | .cniConf => []
  | .credentials => []
  | .service => [.binaries, .credentials]
  | .network => [.binaries, .credentials]
  | .start => [.binaries, .service, .network]
  | .available => [.start]
  | .version => [.binaries]

/-- The partial order the guards enforce on valid runs: every prerequisite
of the step at position `p` occurs strictly before `p`. -/
def OrderedRun (run : List StepId) : Prop :=
  ∀ p, (hp : p < run.length) → ∀ q, q ∈ requires (run.get ⟨p, hp⟩) →
    q ∈ run.take p

/-! ### Observation helpers and guarded single-step dispatch -/

/-- Whether an action is a subprocess invocation
(`check_call` / `check_output`). -/
def isCmdAction : Action → Bool
  | .checkCallArgs _ => true
  | .checkCallShell _ => true
  | .checkOutputCmd _ => true
  | _ => false

/-- Whether an action is a `log` or `status_set` call. -/
def isLogOrStatus : Action → Bool
  | .logMsg _ => true
  | .logCmd _ => true
  | .status _ _ => true
  | _ => false

/-- The files a trace removes, in order. -/
def removedFilesOf (t : List Action) : List String :=
  t.filterMap fun a =>
    match a with
    | .removeFile p => some p
    | _ => none

/-- One reactive dispatch of `install_flannel_binaries` including its
`@when_not('flannel.binaries.installed')` gate. -/
def installBinariesStep (w : World) (f : Flags) : HResult :=
  if f.binariesInstalled then { flags := f, trace := [], exc := none }
  else install_flannel_binaries w f

/-- One reactive dispatch of `configure_cni` including its
`@when_not('flannel.cni.configured')` gate (on a worker node). -/
def configureCniStep (f : Flags) : HResult :=
  if f.cniConfigured then { flags := f, trace := [], exc := none }
  else configure_cni f

/-- One reactive dispatch of `start_flannel_service` including its
`@when_not('flannel.service.started')` gate (with the `@when` flags up). -/
def startServiceStep (f : Flags) : HResult :=
  if f.serviceStarted then { flags := f, trace := [], exc := none }
  else start_flannel_service f

/-! ### Concrete worlds used to instantiate the theorems -/

/-- A representative healthy world: resource fetched and large enough, all
subprocesses succeed, typical `route` output, no `iface` config override. -/
def baseWorld : World :=
  { resourceGet := .ok (some "/var/lib/juju/resources/flannel.tar.gz"),
    archiveSize := 5000000,
    charmDir := "/var/lib/juju/charm",
    routeOutput := "Kernel IP routing table\nDestination     Gateway         Genmask         Flags Metric Ref    Use Iface\ndefault         10.0.0.1        0.0.0.0         UG    0      0        0 eth0\n10.0.0.0        0.0.0.0         255.255.255.0   U     0      0        0 eth0",
    configIface := none,
    configCidr := "10.1.0.0/16",
    connectionString := "https://10.0.0.10:2379",
    versionOutput := "v0.10.0\n",
    tarOk := true, installOk := true, etcdctlOk := true,
    ipLinkDownOk := true, ipLinkDeleteOk := true,
    existingFiles :=
      ["/usr/local/bin/flanneld", "/lib/systemd/system/flannel.service",
       "/etc/ssl/flannel/client-key.pem", "/etc/ssl/flannel/client-cert.pem",
       "/etc/ssl/flannel/client-ca.pem", "/var/run/flannel/subnet.env"] }

/-- The seven steps of the sequence the spec describes, in its order. -/
def specSequence : List StepId :=
  [.binaries, .credentials, .service, .network, .start, .available, .version]

/-- `baseWorld` with the `etcdctl` subprocess failing. -/
def etcdFailWorld : World := { baseWorld with etcdctlOk := false }

/-- `baseWorld` with the `iface` charm config set. -/
def ifaceWorld : World := { baseWorld with configIface := some "bond0" }

/-- `baseWorld` where `ip link set flannel.1 down` fails at teardown. -/
def downFailWorld : World := { baseWorld with ipLinkDownOk := false }

/-- `baseWorld` with a truncated resource archive. -/
def smallWorld : World := { baseWorld with archiveSize := 999 }

/-- `baseWorld` where fetching the resource raises. -/
def fetchErrWorld : World := { baseWorld with resourceGet := .error () }

/-- All completion flags set: the state of a finished deployment. -/
def fullFlags : Flags :=
  { binariesInstalled := true, cniConfigured := true,
    etcdCredentialsInstalled := true, serviceInstalled := true,
    networkConfigured := true, serviceStarted := true,
    cniAvailable := true, versionSet := true }

/-! ### Supporting lemmas -/

/-- The default-interface scan returns the last field of the first matching
line, whatever comes after it. -/
theorem findIfaceLines_append_first (pre : List String) (l : String) (post : List String)
    (hpre : ∀ x ∈ pre, pyContainsStr "default" x = false)
    (hl : pyContainsStr "default" l = true) :
    findIfaceLines (pre ++ l :: post) = some (pyLastField l) := by
  induction pre with
  | nil => simp [findIfaceLines, hl]
  | cons x xs ih =>
    have hx := hpre x (by simp)
    simp only [List.cons_append, findIfaceLines, hx, Bool.false_eq_true, if_false]
    exact ih fun y hy => hpre y (by simp [hy])

/-- The default-interface scan leaves `None` when no line matches. -/
theorem findIfaceLines_eq_none (ls : List String)
    (h : ∀ x ∈ ls, pyContainsStr "default" x = false) :
    findIfaceLines ls = none := by
  induction ls with
  | nil => rfl
  | cons x xs ih =>
    simp only [findIfaceLines, h x (by simp), Bool.false_eq_true, if_false]
    exact ih fun y hy => h y (by simp [hy])

/-- Python `split` never produces an empty field list. -/
theorem pySplitChar_ne_nil (sep : Char) (s : List Char) : pySplitChar sep s ≠ [] := by
  cases s with
  | nil => simp [pySplitChar]
  | cons c cs =>
    simp only [pySplitChar]
    split
    · simp
    · rcases h : pySplitChar sep cs with _ | ⟨a, b⟩ <;> simp

/-- The separator occurs in the string exactly when `split` produces at
least two fields. -/
theorem mem_iff_two_le_length (sep : Char) (s : List Char) :
    sep ∈ s ↔ 2 ≤ (pySplitChar sep s).length := by
  induction s with
  | nil => simp [pySplitChar]
  | cons c cs ih =>
    simp only [pySplitChar]
    by_cases hc : c = sep
    · subst hc
      rw [if_pos rfl]
      simp only [List.length_cons]
      constructor
      · intro _
        have := List.length_pos.2 (pySplitChar_ne_nil c cs)
        omega
      · intro _; exact List.mem_cons_self c cs
    · simp only [if_neg hc]
      rcases h : pySplitChar sep cs with _ | ⟨a, b⟩
      · exact absurd h (pySplitChar_ne_nil sep cs)
      · simp only [List.length_cons]
        rw [h] at ih
        simp only [List.length_cons] at ih
        constructor
        · intro hmem
          rcases List.mem_cons.1 hmem with h1 | h2
          · exact absurd h1.symm hc
          · exact ih.1 h2
        · intro hlen
          exact List.mem_cons.2 (Or.inr (ih.2 hlen))

/-- `getLastD` of a non-empty list does not depend on the default. -/
theorem getLastD_irrel {α : Type} (l : List α) (h : l ≠ []) (d₁ d₂ : α) :
    l.getLastD d₁ = l.getLastD d₂ := by
  cases l with
  | nil => exact absurd rfl h
  | cons a t => rw [List.getLastD_cons, List.getLastD_cons]

/-- Python `s.split(sep)[-1]` is the suffix after the last occurrence of
`sep`, and the whole string when `sep` does not occur: the last field
contains no separator and, when the separator occurs at all, is preceded
in `s` by a prefix ending in `sep`. -/
theorem pySplitChar_getLastD_decomp (sep : Char) (s : List Char) :
    (∃ p, s = p ++ sep :: (pySplitChar sep s).getLastD [] ∧
          sep ∉ (pySplitChar sep s).getLastD []) ∨
    (sep ∉ s ∧ (pySplitChar sep s).getLastD [] = s) := by
  induction s with
  | nil => right; simp [pySplitChar]
  | cons c cs ih =>
    by_cases hc : c = sep
    · subst hc
      have hr : pySplitChar c (c :: cs) = [] :: pySplitChar c cs := by
        simp [pySplitChar]
      rw [hr, List.getLastD_cons]
      rcases ih with ⟨p, hp, hnot⟩ | ⟨hnm, heq⟩
      · exact Or.inl ⟨c :: p, by rw [List.cons_append, ← hp], hnot⟩
      · exact Or.inl ⟨[], by rw [List.nil_append, heq], by rw [heq]; exact hnm⟩
    · rcases h : pySplitChar sep cs with _ | ⟨a, t⟩
      · exact absurd h (pySplitChar_ne_nil sep cs)
      · have hr : pySplitChar sep (c :: cs) = (c :: a) :: t := by
          simp only [pySplitChar, if_neg hc, h]
        rw [hr]
        cases t with
        | nil =>
          have hlen : ¬ 2 ≤ (pySplitChar sep cs).length := by
            rw [h]; simp
          have hnm : sep ∉ cs := fun hmem =>
            hlen ((mem_iff_two_le_length sep cs).1 hmem)
          rcases ih with ⟨p, hp, _⟩ | ⟨_, heq⟩
          · exact absurd (hp ▸ List.mem_append_right p (List.mem_cons_self sep _)) hnm
          · right
            rw [h] at heq
            simp only [List.getLastD_cons, List.getLastD_nil] at heq ⊢
            constructor
            · intro hmem
              rcases List.mem_cons.1 hmem with h1 | h2
              · exact hc h1.symm
              · exact hnm h2
            · rw [heq]
        | cons b t' =>
          have e1 : ((c :: a) :: b :: t').getLastD ([] : List Char) =
              (b :: t').getLastD (c :: a) := by
            rw [List.getLastD_cons]
          have e2 : (a :: b :: t').getLastD ([] : List Char) =
              (b :: t').getLastD a := by
            rw [List.getLastD_cons]
          have hL : ((c :: a) :: b :: t').getLastD [] = (pySplitChar sep cs).getLastD [] := by
            rw [h, e1, e2]
            exact getLastD_irrel (b :: t') (by simp) (c :: a) a
          rw [hL]
          have hlen : 2 ≤ (pySplitChar sep cs).length := by rw [h]; simp
          have hmem : sep ∈ cs := (mem_iff_two_le_length sep cs).2 hlen
          rcases ih with ⟨p, hp, hnot⟩ | ⟨hnm, _⟩
          · exact Or.inl ⟨c :: p, by rw [List.cons_append, ← hp], hnot⟩
          · exact absurd hmem hnm

/-- `setStepFlag` sets exactly its own completion flag. -/
theorem stepFlagOf_setStepFlag (q s : StepId) (f : Flags) :
    stepFlagOf q (setStepFlag s f) = if q = s then true else stepFlagOf q f := by
  cases q <;> cases s <;> simp [stepFlagOf, setStepFlag]

/-- When a step's guard holds, the completion flags of all its
prerequisite steps are up. -/
theorem guard_requires (s q : StepId) (f : Flags) (r : Rel)
    (hg : stepGuard s f r = true) (hq : q ∈ requires s) :
    stepFlagOf q f = true := by
  cases s <;> cases q <;>
    simp_all [requires, stepGuard, stepFlagOf, Bool.and_eq_true]

/-- In any valid run, a prerequisite of the step at position `p` was
either already up initially or ran strictly before `p`. -/
theorem validRun_requires_flag (r : Rel) (run : List StepId) :
    ∀ (f : Flags), validRun f r run = true →
      ∀ p (hp : p < run.length) q, q ∈ requires (run.get ⟨p, hp⟩) →
        stepFlagOf q f = true ∨ q ∈ run.take p := by
  induction run with
  | nil => intro f _ p hp; simp at hp
  | cons s rest ih =>
    intro f h p hp q hq
    have h' : stepGuard s f r = true ∧ validRun (setStepFlag s f) r rest = true := by
      simpa [validRun, Bool.and_eq_true] using h
    cases p with
    | zero =>
      left
      exact guard_requires s q f r h'.1 (by simpa using hq)
    | succ p' =>
      have hp' : p' < rest.length := by simpa using hp
      have hq' : q ∈ requires (rest.get ⟨p', hp'⟩) := by simpa using hq
      rcases ih (setStepFlag s f) h'.2 p' hp' q hq' with hf | hm
      · rw [stepFlagOf_setStepFlag] at hf
        by_cases hqs : q = s
        · right; rw [List.take_succ_cons, hqs]; exact List.mem_cons_self s _
        · left; simpa [hqs] using hf
      · right
        rw [List.take_succ_cons]
        exact List.mem_cons.2 (Or.inr hm)

/-- Each file-removal pair of the teardown loop removes exactly its file. -/
theorem removedFilesOf_removeLoop (l : List String) :
    removedFilesOf (l.flatMap fun p => [.logMsg ("Removing " ++ p), .removeFile p]) = l := by
  induction l with
  | nil => rfl
  | cons x xs ih => simp [removedFilesOf, List.filterMap_cons] at ih ⊢; exact ih

/-- A gated dispatch of `install_flannel_binaries` leaves the same flags
when run a second time from the state the first run produced. -/
theorem installBinariesStep_flags_idem (w : World) (f : Flags) :
    (installBinariesStep w (installBinariesStep w f).flags).flags =
      (installBinariesStep w f).flags := by
  by_cases hb : f.binariesInstalled
  · simp [installBinariesStep, hb]
  · rcases hres : w.resourceGet with e | v
    · simp [installBinariesStep, hb, install_flannel_binaries, hres, blockedResult]
    · rcases v with _ | a
      · simp [installBinariesStep, hb, install_flannel_binaries, hres, blockedResult]
      · by_cases hsz : w.archiveSize < 1000000
        · simp [installBinariesStep, hb, install_flannel_binaries, hres, blockedResult, hsz]
        · by_cases htar : w.tarOk
          · by_cases hinst : w.installOk
            · simp [installBinariesStep, hb, install_flannel_binaries, hres, hsz, htar, hinst]
            · simp [installBinariesStep, hb, install_flannel_binaries, hres, hsz, htar, hinst]
          · simp [installBinariesStep, hb, install_flannel_binaries, hres, hsz, htar]

/-! ### The claims -/

set_option maxRecDepth 4000 in
/-- C1: for every configured cidr value (and every connection string),
`configure_network` issues exactly one subprocess command; it is the single
`etcdctl set` call writing the JSON document
`\x7b"Network": <cidr>, "Backend": \x7b"Type": "vxlan"\x7d\x7d` to the key
`/coreos.com/network/config`, with the etcd connection string passed to
`--endpoint` and the three TLS client files under `/etc/ssl/flannel` passed
to `--cert-file`, `--key-file` and `--ca-file`; when the call succeeds the
handler raises nothing and the `flannel.network.configured` flag is set
afterwards. -/
theorem configure_network_seeds_etcd (w : World) (f : Flags) :
    ((configure_network w f).trace.filter isCmdAction).length = 1 ∧
    (configure_network w f).trace =
      [Action.checkCallShell
        ("etcdctl --endpoint \x27" ++ (w.connectionString ++
         ("\x27 --cert-file /etc/ssl/flannel/client-cert.pem --key-file /etc/ssl/flannel/client-key.pem --ca-file /etc/ssl/flannel/client-ca.pem set /coreos.com/network/config \x27\x7b\"Network\": \"" ++
          (String.mk (w.configCidr.toList.flatMap jsonEscapeChar) ++
           "\", \"Backend\": \x7b\"Type\": \"vxlan\"\x7d\x7d\x27"))))] ∧
    (w.etcdctlOk = true →
      (configure_network w f).exc = none ∧
      (configure_network w f).flags.networkConfigured = true) := by
  refine ⟨?_, ?_, ?_⟩
  · by_cases h : w.etcdctlOk <;> simp [configure_network, h, isCmdAction]
  · have : etcdctlCommand w.connectionString w.configCidr =
        "etcdctl --endpoint \x27" ++ (w.connectionString ++
         ("\x27 --cert-file /etc/ssl/flannel/client-cert.pem --key-file /etc/ssl/flannel/client-key.pem --ca-file /etc/ssl/flannel/client-ca.pem set /coreos.com/network/config \x27\x7b\"Network\": \"" ++
          (String.mk (w.configCidr.toList.flatMap jsonEscapeChar) ++
           "\", \"Backend\": \x7b\"Type\": \"vxlan\"\x7d\x7d\x27"))) := by
      simp only [etcdctlCommand, networkConfigJson, jsonStr, ETCD_CERT_PATH,
        ETCD_KEY_PATH, ETCD_CA_PATH, ETCD_PATH, String.append_assoc]
      rfl
    by_cases h : w.etcdctlOk <;> simp [configure_network, h, this]
  · intro h
    simp [configure_network, h]

/-- C1 witness: at a concrete healthy world the `etcdctl` call succeeds,
nothing is raised and the flag comes up. -/
theorem configure_network_seeds_etcd_witness :
    (configure_network baseWorld initFlags).exc = none ∧
    (configure_network baseWorld initFlags).flags.networkConfigured = true :=
  (configure_network_seeds_etcd baseWorld initFlags).2.2 rfl

/-- C2: with the `iface` config unset, `install_flannel_service` renders
`flannel.service` with the parsed default interface and the etcd connection
string as template context, and the parsed interface is the last
space-separated field of the first `route` output line containing the
substring `default`, or `None` when no line does. -/
theorem install_flannel_service_route_parsing (w : World) (f : Flags)
    (hcfg : truthy w.configIface = false) :
    (install_flannel_service w f).trace =
      [Action.status "maintenance" "Installing flannel service.",
       Action.checkOutputCmd ["route"],
       Action.renderFile "flannel.service" "/lib/systemd/system/flannel.service"
         (.service { iface := find_default_interface w.routeOutput,
                     connection_string := w.connectionString,
                     cert_path := "/etc/ssl/flannel" })] ∧
    (install_flannel_service w f).flags.serviceInstalled = true ∧
    (∀ pre l post, pySplit '\n' w.routeOutput = pre ++ l :: post →
      (∀ x ∈ pre, pyContainsStr "default" x = false) →
      pyContainsStr "default" l = true →
      find_default_interface w.routeOutput = some ((pySplit ' ' l).getLastD "")) ∧
    ((∀ x ∈ pySplit '\n' w.routeOutput, pyContainsStr "default" x = false) →
      find_default_interface w.routeOutput = none) := by
  refine ⟨?_, rfl, ?_, ?_⟩
  · simp [install_flannel_service, serviceContextOf, pyOr, hcfg, ETCD_PATH]
  · intro pre l post hsplit hpre hl
    unfold find_default_interface
    rw [hsplit]
    exact findIfaceLines_append_first pre l post hpre hl
  · intro hall
    unfold find_default_interface
    exact findIfaceLines_eq_none _ hall

/-- C2 witness: on a concrete `route` output the third line is the first
one containing `default` and its last field, `eth0`, is parsed. -/
theorem install_flannel_service_route_parsing_witness :
    find_default_interface baseWorld.routeOutput =
      some ((pySplit ' ' "default         10.0.0.1        0.0.0.0         UG    0      0        0 eth0").getLastD "") ∧
    (pySplit ' ' "default         10.0.0.1        0.0.0.0         UG    0      0        0 eth0").getLastD "" = "eth0" := by
  constructor
  · exact (install_flannel_service_route_parsing baseWorld initFlags rfl).2.2.1
      ["Kernel IP routing table",
       "Destination     Gateway         Genmask         Flags Metric Ref    Use Iface"]
      "default         10.0.0.1        0.0.0.0         UG    0      0        0 eth0"
      ["10.0.0.0        0.0.0.0         255.255.255.0   U     0      0        0 eth0"]
      rfl (by decide) (by decide)
  · rfl

/-- C3 counterexample: when the `etcdctl` call fails, `configure_network`
propagates the `CalledProcessError` and neither logs nor sets any status,
refuting the claim that every failure in every handler is handled by
logging and a blocked/waiting status without raising. -/
theorem configure_network_failure_propagates_cex :
    (configure_network etcdFailWorld initFlags).exc = some "CalledProcessError" ∧
    (configure_network etcdFailWorld initFlags).trace.filter isLogOrStatus = [] :=
  ⟨rfl, rfl⟩

/-- C3 amended: the failures the handlers do catch (a raised resource
fetch, a missing resource, a too-small archive, and the ip-link teardown
failure) are handled by logging and a blocked status and the handler
returns without raising, and teardown file removal still proceeds; but
subprocess failures inside the flag-gated handlers (for example `tar` or
`etcdctl`) are not caught and propagate out of the handler without any log
or status call. -/
theorem caught_failures_log_and_block (w : World) (f : Flags) :
    (w.resourceGet = .error () →
      (install_flannel_binaries w f).exc = none ∧
      (install_flannel_binaries w f).flags = f ∧
      Action.logMsg "Error fetching the flannel resource."
        ∈ (install_flannel_binaries w f).trace ∧
      Action.status "blocked" "Error fetching the flannel resource."
        ∈ (install_flannel_binaries w f).trace) ∧
    (w.resourceGet = .ok none →
      (install_flannel_binaries w f).exc = none ∧
      Action.status "blocked" "Missing flannel resource."
        ∈ (install_flannel_binaries w f).trace) ∧
    (∀ a, w.resourceGet = .ok (some a) → w.archiveSize < 1000000 →
      (install_flannel_binaries w f).exc = none ∧
      Action.status "blocked" "Incomplete flannel resource"
        ∈ (install_flannel_binaries w f).trace) ∧
    (w.etcdctlOk = false →
      (configure_network w f).exc = some "CalledProcessError" ∧
      (configure_network w f).trace.filter isLogOrStatus = []) ∧
    (w.tarOk = false → ∀ a, w.resourceGet = .ok (some a) →
      ¬ w.archiveSize < 1000000 →
      (install_flannel_binaries w f).exc = some "CalledProcessError") ∧
    (w.ipLinkDownOk = false →
      Action.logMsg "Unable to remove iface flannel.1" ∈ cleanup_deployment w ∧
      removedFilesOf (cleanup_deployment w) =
        cleanupFiles.filter (fun p => w.existingFiles.contains p)) := by
  refine ⟨?_, ?_, ?_, ?_, ?_, ?_⟩
  · intro h
    simp [install_flannel_binaries, h, blockedResult]
  · intro h
    simp [install_flannel_binaries, h, blockedResult]
  · intro a h hsz
    simp [install_flannel_binaries, h, blockedResult, hsz]
  · intro h
    simp [configure_network, h, isLogOrStatus]
  · intro htar a h hsz
    simp [install_flannel_binaries, h, hsz, htar]
  · intro h
    constructor
    · simp [cleanup_deployment, h]
    · cases hdel : w.ipLinkDeleteOk <;>
        simp [cleanup_deployment, h, hdel, removedFilesOf, List.filterMap_append] <;>
        have := removedFilesOf_removeLoop (cleanupFiles.filter (fun p => w.existingFiles.contains p)) <;>
        simpa [removedFilesOf] using this

/-- C3 witness: a raised resource fetch is swallowed while a failing
`etcdctl` call propagates. -/
theorem caught_failures_log_and_block_witness :
    (install_flannel_binaries fetchErrWorld initFlags).exc = none ∧
    (configure_network etcdFailWorld initFlags).exc = some "CalledProcessError" :=
  ⟨((caught_failures_log_and_block fetchErrWorld initFlags).1 rfl).1,
   ((caught_failures_log_and_block etcdFailWorld initFlags).2.2.2.1 rfl).1⟩

/-- C4 counterexample: the run that installs the binaries and then
immediately reports the version is accepted by the guards, yet the version
step (seventh in the claimed linear sequence) runs before the credential,
service, network, start and readiness steps have completed. -/
theorem linear_sequence_cex :
    validRun initFlags allRel [StepId.binaries, StepId.version] = true ∧
    claimLinear [StepId.binaries, StepId.version] = false := by
  decide

/-- C4 amended: the guards enforce only a partial completion order, not
the claimed linear sequence: binary installation precedes the service
render, the etcd seed and the version report; credential installation
precedes the service render and the etcd seed; both the service render and
the etcd seed precede the service start; and the service start precedes
the readiness signal.  Every valid run from a fresh state respects exactly
these prerequisites. -/
theorem valid_runs_respect_guard_order (r : Rel) (run : List StepId)
    (h : validRun initFlags r run = true) : OrderedRun run := by
  intro p hp q hq
  rcases validRun_requires_flag r run initFlags h p hp q hq with hf | hm
  · cases q <;> simp [stepFlagOf, initFlags] at hf
  · exact hm

/-- C4 witness: the full seven-step sequence in the spec order is a valid
run and respects the guard-enforced prerequisites. -/
theorem valid_runs_respect_guard_order_witness :
    validRun initFlags allRel specSequence = true ∧ OrderedRun specSequence :=
  ⟨by decide, valid_runs_respect_guard_order allRel specSequence (by decide)⟩

/-- C5: on a stop hook `cleanup_deployment` first stops the flannel
service; when the ip-link calls succeed it brings `flannel.1` down and then
deletes it; a failure of either is caught and logged (and nothing is ever
raised, as the return type records); and the removed files are exactly the
seven-element known file set restricted to the files that exist, whatever
happened to the interface. -/
theorem cleanup_deployment_stops_and_removes (w : World) :
    (cleanup_deployment w).head? = some (Action.svcStop "flannel") ∧
    (w.ipLinkDownOk = true →
      Action.checkCallArgs ["ip", "link", "set", "flannel.1", "down"] ∈ cleanup_deployment w ∧
      Action.checkCallArgs ["ip", "link", "delete", "flannel.1"] ∈ cleanup_deployment w) ∧
    ((w.ipLinkDownOk = false ∨ w.ipLinkDeleteOk = false) →
      Action.logMsg "Unable to remove iface flannel.1" ∈ cleanup_deployment w ∧
      Action.logMsg "Potential indication that cleanup is not possible" ∈ cleanup_deployment w) ∧
    removedFilesOf (cleanup_deployment w) =
      ["/usr/local/bin/flanneld", "/lib/systemd/system/flannel",
       "/lib/systemd/system/flannel.service", "/etc/ssl/flannel/client-key.pem",
       "/etc/ssl/flannel/client-cert.pem", "/etc/ssl/flannel/client-ca.pem",
       "/var/run/flannel/subnet.env"].filter (fun p => w.existingFiles.contains p) := by
  have hfiles : cleanupFiles =
      ["/usr/local/bin/flanneld", "/lib/systemd/system/flannel",
       "/lib/systemd/system/flannel.service", "/etc/ssl/flannel/client-key.pem",
       "/etc/ssl/flannel/client-cert.pem", "/etc/ssl/flannel/client-ca.pem",
       "/var/run/flannel/subnet.env"] := rfl
  refine ⟨?_, ?_, ?_, ?_⟩
  · cases hd : w.ipLinkDownOk <;> cases hdel : w.ipLinkDeleteOk <;>
      simp [cleanup_deployment, hd, hdel]
  · intro hd
    cases hdel : w.ipLinkDeleteOk <;>
      simp [cleanup_deployment, hd, hdel]
  · intro hor
    cases hd : w.ipLinkDownOk <;> cases hdel : w.ipLinkDeleteOk <;>
      simp_all [cleanup_deployment]
  · rw [← hfiles]
    cases hd : w.ipLinkDownOk <;> cases hdel : w.ipLinkDeleteOk <;>
      simp [cleanup_deployment, hd, hdel, removedFilesOf, List.filterMap_append] <;>
      have := removedFilesOf_removeLoop (cleanupFiles.filter (fun p => w.existingFiles.contains p)) <;>
      simpa [removedFilesOf] using this

/-- C5 witness: with healthy ip-link calls both the down and the delete
commands are issued, and with a failing down command the failure is
logged. -/
theorem cleanup_deployment_stops_and_removes_witness :
    (Action.checkCallArgs ["ip", "link", "set", "flannel.1", "down"] ∈ cleanup_deployment baseWorld ∧
     Action.checkCallArgs ["ip", "link", "delete", "flannel.1"] ∈ cleanup_deployment baseWorld) ∧
    Action.logMsg "Unable to remove iface flannel.1" ∈ cleanup_deployment downFailWorld :=
  ⟨(cleanup_deployment_stops_and_removes baseWorld).2.1 rfl,
   ((cleanup_deployment_stops_and_removes downFailWorld).2.2.1 (Or.inl rfl)).1⟩

set_option maxRecDepth 4000 in
/-- C6: once the resource is fetched, `install_flannel_binaries` checks it
only by size: below 1000000 bytes it logs, sets the blocked status
`Incomplete flannel resource` and returns with the flags untouched and no
subprocess run; at or above that size (with the subprocesses succeeding) it
unpacks the archive and installs each of the five binaries to its fixed
destination path and sets the `flannel.binaries.installed` flag. -/
theorem install_flannel_binaries_size_check (w : World) (f : Flags) (archive : String)
    (hres : w.resourceGet = .ok (some archive)) :
    (w.archiveSize < 1000000 →
      install_flannel_binaries w f =
        { flags := f,
          trace := [.logMsg "Incomplete flannel resource",
                    .status "blocked" "Incomplete flannel resource"],
          exc := none }) ∧
    (1000000 ≤ w.archiveSize → w.tarOk = true → w.installOk = true →
      install_flannel_binaries w f =
        { flags := { f with binariesInstalled := true },
          trace :=
            [.status "maintenance" "Unpacking flannel resource.",
             .makeDirs (w.charmDir ++ "/files/flannel"),
             .logCmd ["tar", "xfz", archive, "-C", w.charmDir ++ "/files/flannel"],
             .checkCallArgs ["tar", "xfz", archive, "-C", w.charmDir ++ "/files/flannel"],
             .checkCallArgs ["install", "-v", "-D",
               w.charmDir ++ "/files/flannel/flanneld", "/usr/local/bin/flanneld"],
             .checkCallArgs ["install", "-v", "-D",
               w.charmDir ++ "/files/flannel/etcdctl", "/usr/local/bin/etcdctl"],
             .checkCallArgs ["install", "-v", "-D",
               w.charmDir ++ "/files/flannel/flannel", "/opt/cni/bin/flannel"],
             .checkCallArgs ["install", "-v", "-D",
               w.charmDir ++ "/files/flannel/bridge", "/opt/cni/bin/bridge"],
             .checkCallArgs ["install", "-v", "-D",
               w.charmDir ++ "/files/flannel/host-local", "/opt/cni/bin/host-local"]],
          exc := none }) := by
  constructor
  · intro hlt
    simp [install_flannel_binaries, hres, blockedResult, hlt]
  · intro hge htar hinst
    rw [install_flannel_binaries, hres]
    simp only [if_neg (by omega : ¬ w.archiveSize < 1000000), htar, hinst,
      Bool.not_true, Bool.false_eq_true, if_false, flannelApps, installCmdFor,
      List.map_cons, List.map_nil, String.append_assoc]
    rfl

/-- C6 witness: a 999-byte archive is rejected with the flags untouched
while a 5000000-byte archive is installed and sets the flag. -/
theorem install_flannel_binaries_size_check_witness :
    (install_flannel_binaries smallWorld initFlags).flags = initFlags ∧
    (install_flannel_binaries baseWorld initFlags).flags =
      { initFlags with binariesInstalled := true } := by
  constructor
  · have h := (install_flannel_binaries_size_check smallWorld initFlags
      "/var/lib/juju/resources/flannel.tar.gz" rfl).1 (by decide)
    rw [h]
  · have h := (install_flannel_binaries_size_check baseWorld initFlags
      "/var/lib/juju/resources/flannel.tar.gz" rfl).2 (by decide) rfl rfl
    rw [h]

/-- C7: for empty `flanneld -version` output `set_flannel_version` reports
nothing and leaves the flag down; for every non-empty output it sets the
`flannel.version.set` flag and reports the output split after its last `v`
character (the whole output when no `v` occurs) with surrounding
whitespace stripped. -/
theorem set_flannel_version_parses_output (w : World) (f : Flags) :
    (w.versionOutput = "" →
      set_flannel_version w f =
        { flags := f,
          trace := [.status "maintenance" "Setting flannel version.",
                    .checkOutputCmd ["flanneld", "-version"]],
          exc := none }) ∧
    (w.versionOutput ≠ "" →
      (set_flannel_version w f).flags = { f with versionSet := true } ∧
      ∃ raw,
        (set_flannel_version w f).trace =
          [.status "maintenance" "Setting flannel version.",
           .checkOutputCmd ["flanneld", "-version"],
           .appVersionSet (String.mk (pyStrip raw))] ∧
        ((∃ p, w.versionOutput.toList = p ++ 'v' :: raw ∧ 'v' ∉ raw) ∨
         ('v' ∉ w.versionOutput.toList ∧ raw = w.versionOutput.toList))) := by
  constructor
  · intro h
    simp [set_flannel_version, h]
  · intro h
    refine ⟨by simp [set_flannel_version, h],
            (pySplitChar 'v' w.versionOutput.toList).getLastD [], ?_, ?_⟩
    · simp [set_flannel_version, h, pyReportedVersion]
    · exact pySplitChar_getLastD_decomp 'v' w.versionOutput.toList

/-- C7 witness: the output `v0.10.0` with a trailing newline is reported
as `0.10.0` and the flag set. -/
theorem set_flannel_version_parses_output_witness :
    (set_flannel_version baseWorld initFlags).flags = { initFlags with versionSet := true } ∧
    (set_flannel_version baseWorld initFlags).trace =
      [.status "maintenance" "Setting flannel version.",
       .checkOutputCmd ["flanneld", "-version"],
       .appVersionSet "0.10.0"] :=
  ⟨((set_flannel_version_parses_output baseWorld initFlags).2 (by decide)).1, rfl⟩

/-- C8: every install step is idempotent: a step whose completion flag is
up is not dispatched (its guard is false), a dispatched step sets its flag,
dispatching any step twice leaves the same state as dispatching it once,
and for the handlers with non-trivial bodies (binary installation, CNI
configuration, service start) running the gated handler twice produces the
flags of a single run, on every world including the failure paths. -/
theorem install_steps_idempotent (s : StepId) (f : Flags) (r : Rel) (w : World) :
    (stepFlagOf s f = true → stepGuard s f r = false) ∧
    (stepGuard s f r = true → stepFlagOf s (setStepFlag s f) = true) ∧
    dispatchStep s (dispatchStep s f r) r = dispatchStep s f r ∧
    (installBinariesStep w (installBinariesStep w f).flags).flags =
      (installBinariesStep w f).flags ∧
    (configureCniStep (configureCniStep f).flags).flags = (configureCniStep f).flags ∧
    (startServiceStep (startServiceStep f).flags).flags = (startServiceStep f).flags := by
  refine ⟨?_, ?_, ?_, installBinariesStep_flags_idem w f, ?_, ?_⟩
  · intro h
    cases s <;> simp_all [stepGuard, stepFlagOf]
  · intro _
    cases s <;> simp [setStepFlag, stepFlagOf]
  · have hset : ∀ (s' : StepId) (f' : Flags), stepGuard s' (setStepFlag s' f') r = false := by
      intro s' f'
      cases s' <;> simp [stepGuard, setStepFlag]
    by_cases hg : stepGuard s f r
    · simp [dispatchStep, hg, hset]
    · simp [dispatchStep, hg]
  · by_cases hc : f.cniConfigured <;> simp [configureCniStep, configure_cni, hc]
  · by_cases hs : f.serviceStarted <;>
      simp [startServiceStep, start_flannel_service, hs]

/-- C8 witness: after the binaries step completes its guard is false, and
dispatching the version step twice equals dispatching it once. -/
theorem install_steps_idempotent_witness :
    stepGuard .binaries (setStepFlag .binaries initFlags) allRel = false ∧
    dispatchStep .version (dispatchStep .version (setStepFlag .binaries initFlags) allRel) allRel =
      dispatchStep .version (setStepFlag .binaries initFlags) allRel :=
  ⟨(install_steps_idempotent .binaries (setStepFlag .binaries initFlags) allRel baseWorld).1 rfl,
   (install_steps_idempotent .version (setStepFlag .binaries initFlags) allRel baseWorld).2.2.1⟩

/-- C9: the rendered service context uses the configured `iface` value
whenever it is truthy, and falls back to the interface parsed from `route`
output exactly when the config is unset or falsy. -/
theorem config_iface_overrides_route (w : World) (f : Flags) :
    ((install_flannel_service w f).trace.contains
      (Action.renderFile "flannel.service" "/lib/systemd/system/flannel.service"
        (.service (serviceContextOf w)))) = true ∧
    (truthy w.configIface = true → (serviceContextOf w).iface = w.configIface) ∧
    (truthy w.configIface = false →
      (serviceContextOf w).iface = find_default_interface w.routeOutput) := by
  refine ⟨?_, ?_, ?_⟩
  · simp [install_flannel_service]
  · intro h; simp [serviceContextOf, pyOr, h]
  · intro h; simp [serviceContextOf, pyOr, h]

/-- C9 witness: with `iface` set to `bond0` the context ignores the parsed
interface, and with it unset the parsed interface is used. -/
theorem config_iface_overrides_route_witness :
    (serviceContextOf ifaceWorld).iface = some "bond0" ∧
    (serviceContextOf baseWorld).iface = find_default_interface baseWorld.routeOutput :=
  ⟨(config_iface_overrides_route ifaceWorld initFlags).2.1 rfl,
   (config_iface_overrides_route baseWorld initFlags).2.2 rfl⟩

/-- C10: the upgrade-charm hook clears only the
`flannel.binaries.installed` flag with an empty effect trace (so no file is
touched); every other completion flag keeps its value, the binaries step
becomes dispatchable again, and every other completed step stays
non-dispatchable. -/
theorem upgrade_resets_only_binaries_flag (f : Flags) (r : Rel) :
    (reset_states_and_redeploy f).flags.binariesInstalled = false ∧
    (reset_states_and_redeploy f).trace = [] ∧
    (reset_states_and_redeploy f).exc = none ∧
    (∀ s : StepId, s ≠ .binaries →
      stepFlagOf s (reset_states_and_redeploy f).flags = stepFlagOf s f) ∧
    stepGuard .binaries (reset_states_and_redeploy f).flags r = true ∧
    (∀ s : StepId, s ≠ .binaries → stepFlagOf s f = true →
      stepGuard s (reset_states_and_redeploy f).flags r = false) := by
  refine ⟨rfl, rfl, rfl, ?_, rfl, ?_⟩
  · intro s hs
    cases s <;> first | exact absurd rfl hs | rfl
  · intro s hs hflag
    cases s <;>
      simp_all [stepFlagOf, stepGuard, reset_states_and_redeploy]

/-- C10 witness: from a fully deployed state the upgrade hook keeps the
version flag and leaves the version step non-dispatchable. -/
theorem upgrade_resets_only_binaries_flag_witness :
    stepFlagOf .version (reset_states_and_redeploy fullFlags).flags = stepFlagOf .version fullFlags ∧
    stepGuard .version (reset_states_and_redeploy fullFlags).flags allRel = false :=
  ⟨(upgrade_resets_only_binaries_flag fullFlags allRel).2.2.2.1 .version (by decide),
   (upgrade_resets_only_binaries_flag fullFlags allRel).2.2.2.2.2 .version (by decide) rfl⟩

end Flannel
